import Mathlib

/-!
Shallow embedding of the messagepack metadata backend
(`pkg/storage/utils/metadata`-style `MessagePackBackend`): sidecar files,
cache interaction and the read-modify-write protocol, together with proofs
about the behaviour of its operations.

Modelling conventions:
* Attribute values (Go `[]byte`) are lists of bytes (`List Nat`).
* An attribute map (Go `map[string][]byte`) is a `Finmap`, i.e. an
  extensional finite map, which matches Go map equality.
* The msgpack codec is modelled symbolically: `MetaFile.data m` stands for
  the (always non-empty) msgpack encoding of the map `m`, `MetaFile.emptyFile`
  for a zero-length file, and `MetaFile.garbage` for non-empty bytes that do
  not decode.  `msgpack.Marshal` of a `map[string][]byte` never fails and
  never yields zero bytes, and `Unmarshal (Marshal m) = m`.
* The file system and the external metadata cache are explicit state
  (`Sys`); fallible environment calls (lock acquisition, cache pull/push/
  invalidate, the atomic file write) are driven by a fault record (`Faults`)
  saying which of them fail during one call.
-/

/-- Attribute values: opaque byte sequences. -/
abbrev Val := List Nat

/-- Attribute maps: extensional finite maps from attribute name to bytes. -/
abbrev AttrMap := Finmap (fun _ : String => Val)

/-- Content of a sidecar metadata file.  `data m` is the msgpack encoding of
`m` (always non-empty), `emptyFile` a zero-length file, `garbage` non-empty
undecodable bytes. -/
inductive MetaFile where
  | emptyFile : MetaFile
  | garbage : MetaFile
  | data (m : AttrMap) : MetaFile
deriving DecidableEq

/-- Outcomes of a failed operation (collapsing Go error values to their
kind).  All constructors except the last are error values returned to the
caller.  `crashNilClose` is different: it marks the one branch where the Go
function does not return at all — `saveAttributes` registers
`defer f.Close()` before checking the error of `lockedfile.OpenFile`
(lines 140-145 of the source), so when the open fails the deferred close
dereferences the nil `*lockedfile.File` and the goroutine panics instead of
returning the open error. -/
inductive Err where
  | notFound : Err
  | emptyMetafile : Err
  | decodeErr : Err
  | cacheErr : Err
  | lockErr : Err
  | ioErr : Err
  | noAttr : Err
  | parseErr : Err
  | crashNilClose : Err
deriving DecidableEq

/-- The world the backend acts on: sidecar files are keyed by the OBJECT path
(the content stored at `MetadataPath path`), `obj` is the `os.Stat` view of
primary object paths, `cache` is the external metadata cache keyed by cache
key. -/
structure Sys where
  meta : String → Option MetaFile
  obj : String → Bool
  cache : String → Option AttrMap

/-- Fault injection for the environment calls made during one operation. -/
structure Faults where
  pullFail : Bool
  pushFail : Bool
  removeFail : Bool
  lockFail : Bool
  writeFail : Bool

/-- The fault-free environment. -/
def noFaults : Faults := ⟨false, false, false, false, false⟩

/-- Cache pull: `some m` models `err == nil` from `PullFromCache`; a miss and
a cache failure both surface as a non-nil error in Go, i.e. `none` here. -/
def pullFromCache (st : Sys) (fl : Faults) (k : String) : Option AttrMap :=
  if fl.pullFail then none else st.cache k

/-- The backend value: only the root path is state; the cache lives in `Sys`. -/
structure MessagePackBackend where
  rootPath : String

namespace MessagePackBackend

/-- Go `Name` returns the name of the backend. -/
def Name : String := "messagepack"

/-- Go `MetadataPath` returns the path of the file holding the metadata. -/
def MetadataPath (path : String) : String := path ++ ".mpk"

/-- Go `LockfilePath` returns the path of the lock file. -/
def LockfilePath (path : String) : String := path ++ ".mlock"

/-- Go `IsMetaFile` returns whether the given path represents a meta file
(`strings.HasSuffix`, modelled on the character sequence). -/
def IsMetaFile (path : String) : Bool :=
  List.isSuffixOf ".mpk".data path.data ||
    List.isSuffixOf ".mpk.lock".data path.data

/-- Go `cacheKey` strips the root from the path (`strings.TrimPrefix`,
modelled on the character sequence). -/
def cacheKey (b : MessagePackBackend) (path : String) : String :=
  let root := b.rootPath ++ "/"
  if List.isPrefixOf root.data path.data then ⟨path.data.drop root.data.length⟩
  else path

/-- Push `m` into the cache under `path`'s cache key and return it (the tail
of `loadAttributes`: a push failure aborts the read with the error). -/
def pushAndReturn (b : MessagePackBackend) (fl : Faults) (st : Sys)
    (path : String) (m : AttrMap) : Sys × Except Err AttrMap :=
  if fl.pushFail then (st, Except.error Err.cacheErr)
  else ({st with cache := Function.update st.cache (b.cacheKey path) (some m)},
        Except.ok m)

/-- Decode file content and cache the result (lines 226-238 of the source:
`len(msgBytes) > 0` guards the unmarshal, so a zero-length file decodes to
the still-empty map). -/
def decodeAndCache (b : MessagePackBackend) (fl : Faults) (st : Sys)
    (path : String) (c : MetaFile) : Sys × Except Err AttrMap :=
  match c with
  | MetaFile.garbage => (st, Except.error Err.decodeErr)
  | MetaFile.emptyFile => pushAndReturn b fl st path ∅
  | MetaFile.data m => pushAndReturn b fl st path m

/-- Go `loadAttributes`: cache first; on miss read the sidecar file (or the
supplied source).  A missing sidecar file is disambiguated with a stat of the
object path and, when the object exists, returns the empty map immediately —
without the cache push, exactly as the early `return attribs, nil` does. -/
def loadAttributes (b : MessagePackBackend) (fl : Faults) (st : Sys)
    (path : String) (source : Option MetaFile) : Sys × Except Err AttrMap :=
  match pullFromCache st fl (b.cacheKey path) with
  | some m => (st, Except.ok m)
  | none =>
    match source with
    | none =>
      match st.meta path with
      | none =>
        if st.obj path then (st, Except.ok ∅)
        else (st, Except.error Err.notFound)
      | some c => decodeAndCache b fl st path c
    | some c => decodeAndCache b fl st path c

/-- Go `All` reads all extended attributes for a node. -/
def All (b : MessagePackBackend) (fl : Faults) (st : Sys) (path : String) :
    Sys × Except Err AttrMap :=
  loadAttributes b fl st path none

/-- Go `Get` reads one extended attribute value for the given key. -/
def Get (b : MessagePackBackend) (fl : Faults) (st : Sys) (path key : String) :
    Sys × Except Err Val :=
  match loadAttributes b fl st path none with
  | (st', Except.error e) => (st', Except.error e)
  | (st', Except.ok m) =>
    match m.lookup key with
    | none => (st', Except.error Err.noAttr)
    | some v => (st', Except.ok v)

/-- One decimal digit of a byte (`'0'`-`'9'`). -/
def digitVal (byte : Nat) : Option Nat :=
  if 48 ≤ byte ∧ byte ≤ 57 then some (byte - 48) else none

/-- Parse a non-empty run of decimal digit bytes. -/
def parseDigits (bs : List Nat) : Option Nat :=
  if bs.isEmpty then none
  else
    bs.foldl
      (fun acc byte =>
        match acc, digitVal byte with
        | some n, some d => some (n * 10 + d)
        | _, _ => none)
      (some 0)

/-- Model of `strconv.ParseInt(string(val), 10, 64)`: optional sign, decimal
digits, 64-bit signed range check. -/
def parseInt64 (bs : List Nat) : Option Int :=
  let signed : Bool × List Nat :=
    match bs with
    | 45 :: rest => (true, rest)
    | 43 :: rest => (false, rest)
    | _ => (false, bs)
  match parseDigits signed.2 with
  | none => none
  | some n =>
    let v : Int := if signed.1 then -(n : Int) else (n : Int)
    if -(2 ^ 63) ≤ v ∧ v ≤ 2 ^ 63 - 1 then some v else none

/-- Go `GetInt64` reads a string as int64 from the xattrs. -/
def GetInt64 (b : MessagePackBackend) (fl : Faults) (st : Sys)
    (path key : String) : Sys × Except Err Int :=
  match loadAttributes b fl st path none with
  | (st', Except.error e) => (st', Except.error e)
  | (st', Except.ok m) =>
    match m.lookup key with
    | none => (st', Except.error Err.noAttr)
    | some v =>
      match parseInt64 v with
      | none => (st', Except.error Err.parseErr)
      | some i => (st', Except.ok i)

/-- Go `AllWithLockedSource` reads the attributes from the given reader. -/
def AllWithLockedSource (b : MessagePackBackend) (fl : Faults) (st : Sys)
    (path : String) (source : MetaFile) : Sys × Except Err AttrMap :=
  loadAttributes b fl st path (some source)

/-- Reading the current sidecar state inside `saveAttributes` (lines 150-168):
missing file gives the empty base map, a zero-length file is the fatal
"encountered empty metadata file", undecodable bytes fail to unmarshal. -/
def readBase : Option MetaFile → Except Err AttrMap
  | none => Except.ok ∅
  | some MetaFile.emptyFile => Except.error Err.emptyMetafile
  | some MetaFile.garbage => Except.error Err.decodeErr
  | some (MetaFile.data m) => Except.ok m

/-- The merge of lines 170-176: apply `setAttribs` (overwrite by key, i.e. a
left-biased union) then delete `deleteAttribs`. -/
def mergeAttrs (base setAttribs : AttrMap) (deleteAttribs : List String) :
    AttrMap :=
  deleteAttribs.foldl (fun m k => m.erase k) (setAttribs ∪ base)

/-- Go `saveAttributes`: lock (when requested), best-effort cache invalidation
(its error is discarded by `_ =`), fresh read of the sidecar file, merge,
atomic replace, cache re-population.  Returns the final world plus the
outcome: `none` for success, `some e` for a returned error — except the
lock-failure branch, whose outcome `Err.crashNilClose` records that the
source does not return there: the deferred close of the never-opened lock
handle (registered before the error check, lines 140-145) dereferences nil
and panics, with no state touched. -/
def saveAttributes (b : MessagePackBackend) (fl : Faults) (st : Sys)
    (path : String) (setAttribs : AttrMap) (deleteAttribs : List String)
    (acquireLock : Bool) : Sys × Option Err :=
  if acquireLock && fl.lockFail then (st, some Err.crashNilClose)
  else
    let st1 : Sys :=
      if fl.removeFail then st
      else {st with cache := Function.update st.cache (b.cacheKey path) none}
    match readBase (st1.meta path) with
    | Except.error e => (st1, some e)
    | Except.ok base =>
      let merged := mergeAttrs base setAttribs deleteAttribs
      if fl.writeFail then (st1, some Err.ioErr)
      else
        let st2 : Sys :=
          {st1 with meta := Function.update st1.meta path (some (MetaFile.data merged))}
        if fl.pushFail then (st2, some Err.cacheErr)
        else
          ({st2 with cache := Function.update st2.cache (b.cacheKey path) (some merged)},
           none)

/-- Go `SetMultiple` sets a set of attributes for the given path. -/
def SetMultiple (b : MessagePackBackend) (fl : Faults) (st : Sys)
    (path : String) (attribs : AttrMap) (acquireLock : Bool) : Sys × Option Err :=
  saveAttributes b fl st path attribs [] acquireLock

/-- Go `Set` sets one attribute for the given path. -/
def Set (b : MessagePackBackend) (fl : Faults) (st : Sys)
    (path key : String) (val : Val) : Sys × Option Err :=
  SetMultiple b fl st path ((∅ : AttrMap).insert key val) true

/-- Go `Remove` deletes one extended attribute key. -/
def Remove (b : MessagePackBackend) (fl : Faults) (st : Sys)
    (path key : String) : Sys × Option Err :=
  saveAttributes b fl st path ∅ [key] true

/-- Go `Purge` invalidates the cache entry (fatally on error) and deletes the
sidecar file; `os.Remove` of a missing file is an error. -/
def Purge (b : MessagePackBackend) (fl : Faults) (st : Sys) (path : String) :
    Sys × Option Err :=
  if fl.removeFail then (st, some Err.cacheErr)
  else
    let st1 : Sys :=
      {st with cache := Function.update st.cache (b.cacheKey path) none}
    match st1.meta path with
    | none => (st1, some Err.notFound)
    | some _ =>
      ({st1 with meta := Function.update st1.meta path none}, none)

/-- The tail of `Rename` after the optional cache migration: invalidate the
old cache key (fatally on error), then `os.Rename` the sidecar file (which
fails when the source file is missing). -/
def renameTail (b : MessagePackBackend) (fl : Faults) (st : Sys)
    (oldPath newPath : String) : Sys × Option Err :=
  if fl.removeFail then (st, some Err.cacheErr)
  else
    let st1 : Sys :=
      {st with cache := Function.update st.cache (b.cacheKey oldPath) none}
    match st1.meta oldPath with
    | none => (st1, some Err.notFound)
    | some c =>
      ({st1 with
          meta := Function.update (Function.update st1.meta oldPath none)
            newPath (some c)},
       none)

/-- Go `Rename` moves the data for a given path to a new path: a successful pull
of the old cache entry is migrated to the new key (a push failure is fatal);
a pull failure is treated as nothing to migrate; then `renameTail`. -/
def Rename (b : MessagePackBackend) (fl : Faults) (st : Sys)
    (oldPath newPath : String) : Sys × Option Err :=
  match pullFromCache st fl (b.cacheKey oldPath) with
  | some m =>
    if fl.pushFail then (st, some Err.cacheErr)
    else
      renameTail b fl
        {st with cache := Function.update st.cache (b.cacheKey newPath) (some m)}
        oldPath newPath
  | none => renameTail b fl st oldPath newPath

/-- Go `List` retrieves the names of the extended attributes (returned in
unspecified order in Go, hence a `Finset`). -/
def List (b : MessagePackBackend) (fl : Faults) (st : Sys) (path : String) :
    Sys × Except Err (Finset String) :=
  match loadAttributes b fl st path none with
  | (st', Except.error e) => (st', Except.error e)
  | (st', Except.ok m) => (st', Except.ok m.keys)

end MessagePackBackend

/-! Fault environments and concrete worlds used by witnesses and
counterexamples. -/

/-- Only the cache pull fails (equivalently: the cache is bypassed). -/
def pullFailEnv : Faults := {noFaults with pullFail := true}

/-- Only the cache push fails. -/
def pushFailEnv : Faults := {noFaults with pushFail := true}

/-- Only the cache invalidation fails. -/
def removeFailEnv : Faults := {noFaults with removeFail := true}

/-- Only the lock acquisition fails. -/
def lockFailEnv : Faults := {noFaults with lockFail := true}

/-- A backend rooted at `/r`. -/
def b0 : MessagePackBackend := ⟨"/r"⟩

/-- A one-entry attribute map. -/
def M0 : AttrMap := (∅ : AttrMap).insert "user.x" [49]

/-- Another one-entry attribute map. -/
def M1 : AttrMap := (∅ : AttrMap).insert "user.y" [50]

/-- No sidecar files, all primary objects exist, empty cache. -/
def st0 : Sys := ⟨fun _ => none, fun _ => true, fun _ => none⟩

/-- No sidecar files, no primary objects, empty cache. -/
def stMissing : Sys := ⟨fun _ => none, fun _ => false, fun _ => none⟩

/-- Every sidecar file exists but is zero-length; objects exist; empty cache. -/
def stEmptyFile : Sys := ⟨fun _ => some MetaFile.emptyFile, fun _ => true, fun _ => none⟩

/-- The object `/r/f` has sidecar content `M0`; empty cache. -/
def stData : Sys :=
  ⟨fun p => if p = "/r/f" then some (MetaFile.data M0) else none,
   fun _ => true, fun _ => none⟩

/-- The object `/r/f` has sidecar content `M0` and a warm cache entry
(cache key `f`, the path with the root `/r/` stripped). -/
def stCached : Sys :=
  ⟨fun p => if p = "/r/f" then some (MetaFile.data M0) else none,
   fun _ => true,
   fun k => if k = "f" then some M0 else none⟩

/-- The lock-serialized execution of one single-key `SetMultiple` per writer,
in the order the writers obtained the lock; stops at the first failure. -/
def runWriters (b : MessagePackBackend) (path : String) :
    Sys → List (String × Val) → Sys × Bool
  | st, [] => (st, true)
  | st, (k, v) :: rest =>
    match MessagePackBackend.SetMultiple b noFaults st path
        ((∅ : AttrMap).insert k v) true with
    | (st', none) => runWriters b path st' rest
    | (st', some _) => (st', false)

/-- The union of a list of single-key contributions. -/
def unionOf (l : List (String × Val)) : AttrMap :=
  l.foldl (fun acc kv => acc.insert kv.1 kv.2) ∅

/-- A list of single-key contributions from two distinct writers. -/
def l0 : List (String × Val) := [("user.x", [49]), ("user.y", [50])]

/-! Helper lemmas about `Finmap` merges. -/

theorem singleton_union_eq_insert (k : String) (v : Val) (m : AttrMap) :
    ((∅ : AttrMap).insert k v) ∪ m = m.insert k v := by
  apply Finmap.ext_lookup
  intro j
  by_cases hj : j = k
  · subst hj
    rw [Finmap.lookup_union_left (Finmap.mem_insert.mpr (Or.inl rfl)),
        Finmap.lookup_insert, Finmap.lookup_insert]
  · have hnotmem : j ∉ (∅ : AttrMap).insert k v := by
      simp [Finmap.mem_insert, hj, Finmap.not_mem_empty]
    rw [Finmap.lookup_union_right hnotmem, Finmap.lookup_insert_of_ne _ hj]

theorem mergeAttrs_nil_empty (M : AttrMap) :
    MessagePackBackend.mergeAttrs ∅ M [] = M := by
  simp [MessagePackBackend.mergeAttrs, Finmap.union_empty]

theorem mergeAttrs_nil_singleton (k : String) (v : Val) (m : AttrMap) :
    MessagePackBackend.mergeAttrs m ((∅ : AttrMap).insert k v) [] = m.insert k v := by
  simp [MessagePackBackend.mergeAttrs, singleton_union_eq_insert]

/-- A fault-free locked mutation from a readable base: no error, the sidecar
file holds the merged map, and the cache entry is repopulated with it. -/
theorem saveAttributes_ok_spec (b : MessagePackBackend) (st : Sys)
    (path : String) (M : AttrMap) (dels : List String) (base : AttrMap)
    (h : MessagePackBackend.readBase (st.meta path) = Except.ok base) :
    (MessagePackBackend.saveAttributes b noFaults st path M dels true).2 = none ∧
    (MessagePackBackend.saveAttributes b noFaults st path M dels true).1.meta
      = Function.update st.meta path
          (some (MetaFile.data (MessagePackBackend.mergeAttrs base M dels))) ∧
    (MessagePackBackend.saveAttributes b noFaults st path M dels true).1.obj
      = st.obj ∧
    (MessagePackBackend.saveAttributes b noFaults st path M dels true).1.cache
      = Function.update st.cache (b.cacheKey path)
          (some (MessagePackBackend.mergeAttrs base M dels)) := by
  simp [MessagePackBackend.saveAttributes, noFaults, h, Function.update_idem]

theorem foldl_insert_lookup_of_not_mem :
    ∀ (l : List (String × Val)) (init : AttrMap) (k : String),
      k ∉ l.map Prod.fst →
      (l.foldl (fun acc kv => acc.insert kv.1 kv.2) init).lookup k = init.lookup k
  | [], _, _, _ => rfl
  | (k', v') :: rest, init, k, h => by
    simp only [List.map_cons, List.mem_cons, not_or] at h
    simp only [List.foldl_cons]
    rw [foldl_insert_lookup_of_not_mem rest _ k h.2,
        Finmap.lookup_insert_of_ne _ h.1]

theorem foldl_insert_lookup_mem :
    ∀ (l : List (String × Val)) (init : AttrMap) (kv : String × Val),
      kv ∈ l → (l.map Prod.fst).Nodup →
      (l.foldl (fun acc p => acc.insert p.1 p.2) init).lookup kv.1 = some kv.2
  | [], _, kv, hmem, _ => absurd hmem (List.not_mem_nil kv)
  | (k', v') :: rest, init, kv, hmem, hnd => by
    simp only [List.map_cons, List.nodup_cons] at hnd
    rcases List.mem_cons.mp hmem with heq | hmem'
    · subst heq
      simp only [List.foldl_cons]
      rw [foldl_insert_lookup_of_not_mem rest _ _ hnd.1, Finmap.lookup_insert]
    · simp only [List.foldl_cons]
      exact foldl_insert_lookup_mem rest _ kv hmem' hnd.2

theorem foldl_insert_mem :
    ∀ (l : List (String × Val)) (init : AttrMap) (k : String),
      (k ∈ l.foldl (fun acc p => acc.insert p.1 p.2) init
        ↔ k ∈ l.map Prod.fst ∨ k ∈ init)
  | [], init, k => by simp
  | (k', v') :: rest, init, k => by
    simp only [List.foldl_cons, List.map_cons, List.mem_cons]
    rw [foldl_insert_mem rest]
    simp only [Finmap.mem_insert]
    tauto

/-- Unfolding `runWriters` on a cons cell. -/
theorem runWriters_cons (b : MessagePackBackend) (path : String) (st : Sys)
    (k : String) (v : Val) (rest : List (String × Val)) :
    runWriters b path st ((k, v) :: rest)
      = match MessagePackBackend.SetMultiple b noFaults st path
            ((∅ : AttrMap).insert k v) true with
        | (st', none) => runWriters b path st' rest
        | (st', some _) => (st', false) := rfl

/-- Serialized single-key writers starting from a decodable sidecar file all
succeed, and the final sidecar content is the base map with every
contribution inserted in lock order. -/
theorem runWriters_from_data (b : MessagePackBackend) (path : String) :
    ∀ (l : List (String × Val)) (st : Sys) (m : AttrMap),
      st.meta path = some (MetaFile.data m) →
      (runWriters b path st l).2 = true ∧
      (runWriters b path st l).1.meta path
        = some (MetaFile.data (l.foldl (fun acc kv => acc.insert kv.1 kv.2) m))
  | [], st, m, h => ⟨rfl, by simpa [runWriters] using h⟩
  | (k, v) :: rest, st, m, h => by
    have hb : MessagePackBackend.readBase (st.meta path) = Except.ok m := by
      rw [h]; rfl
    obtain ⟨he, hmeta, -, -⟩ :=
      saveAttributes_ok_spec b st path ((∅ : AttrMap).insert k v) [] m hb
    have he' : (MessagePackBackend.SetMultiple b noFaults st path
        ((∅ : AttrMap).insert k v) true).2 = none := he
    have hpair : MessagePackBackend.SetMultiple b noFaults st path
        ((∅ : AttrMap).insert k v) true
        = ((MessagePackBackend.SetMultiple b noFaults st path
            ((∅ : AttrMap).insert k v) true).1, none) := by
      rw [← he']
    have hmeta' : (MessagePackBackend.SetMultiple b noFaults st path
        ((∅ : AttrMap).insert k v) true).1.meta path
        = some (MetaFile.data (m.insert k v)) := by
      show (MessagePackBackend.saveAttributes b noFaults st path
        ((∅ : AttrMap).insert k v) [] true).1.meta path = _
      rw [hmeta, Function.update_same, mergeAttrs_nil_singleton]
    have hrest := runWriters_from_data b path rest
      (MessagePackBackend.SetMultiple b noFaults st path
        ((∅ : AttrMap).insert k v) true).1 (m.insert k v) hmeta'
    rw [runWriters_cons, hpair]
    exact hrest

/-- Writers serialized behind the lock starting from a missing sidecar file:
the first writer merges into the empty base, the rest proceed from the
previously persisted file. -/
theorem runWriters_from_none (b : MessagePackBackend) (path : String)
    (st : Sys) (k : String) (v : Val) (rest : List (String × Val))
    (h0 : st.meta path = none) :
    (runWriters b path st ((k, v) :: rest)).2 = true ∧
    (runWriters b path st ((k, v) :: rest)).1.meta path
      = some (MetaFile.data
          (rest.foldl (fun acc kv => acc.insert kv.1 kv.2)
            ((∅ : AttrMap).insert k v))) := by
  have hb : MessagePackBackend.readBase (st.meta path) = Except.ok ∅ := by
    rw [h0]; rfl
  obtain ⟨he, hmeta, -, -⟩ :=
    saveAttributes_ok_spec b st path ((∅ : AttrMap).insert k v) [] ∅ hb
  have he' : (MessagePackBackend.SetMultiple b noFaults st path
      ((∅ : AttrMap).insert k v) true).2 = none := he
  have hpair : MessagePackBackend.SetMultiple b noFaults st path
      ((∅ : AttrMap).insert k v) true
      = ((MessagePackBackend.SetMultiple b noFaults st path
          ((∅ : AttrMap).insert k v) true).1, none) := by
    rw [← he']
  have hmeta' : (MessagePackBackend.SetMultiple b noFaults st path
      ((∅ : AttrMap).insert k v) true).1.meta path
      = some (MetaFile.data ((∅ : AttrMap).insert k v)) := by
    show (MessagePackBackend.saveAttributes b noFaults st path
      ((∅ : AttrMap).insert k v) [] true).1.meta path = _
    rw [hmeta, Function.update_same, mergeAttrs_nil_empty]
  have hrest := runWriters_from_data b path rest
    (MessagePackBackend.SetMultiple b noFaults st path
      ((∅ : AttrMap).insert k v) true).1 ((∅ : AttrMap).insert k v) hmeta'
  rw [runWriters_cons, hpair]
  exact hrest

/-- A read that hits the cache returns the cached map with no state change. -/
theorem load_hit (b : MessagePackBackend) (fl : Faults) (st : Sys)
    (path : String) (m : AttrMap) (hf : fl.pullFail = false)
    (hc : st.cache (b.cacheKey path) = some m) :
    MessagePackBackend.loadAttributes b fl st path none = (st, Except.ok m) := by
  simp [MessagePackBackend.loadAttributes, pullFromCache, hf, hc]

/-- A read that misses the cache and decodes a well-formed sidecar file
returns the decoded map and repopulates the cache. -/
theorem load_miss_data (b : MessagePackBackend) (fl : Faults) (st : Sys)
    (path : String) (m : AttrMap)
    (hpull : pullFromCache st fl (b.cacheKey path) = none)
    (hpush : fl.pushFail = false)
    (hm : st.meta path = some (MetaFile.data m)) :
    MessagePackBackend.loadAttributes b fl st path none
      = ({st with cache := Function.update st.cache (b.cacheKey path) (some m)},
         Except.ok m) := by
  simp [MessagePackBackend.loadAttributes, hpull, hm,
    MessagePackBackend.decodeAndCache, MessagePackBackend.pushAndReturn, hpush]

/-- Claim C1: for an object with no pre-existing attribute map, a successful
`SetMultiple(path, M, true)` followed by `All(path)` returns exactly `M`,
both when the read is served from the cache and when the cache is bypassed
and the map is decoded fresh from the sidecar file. -/
theorem c1_set_then_all_roundtrip (b : MessagePackBackend) (st : Sys)
    (path : String) (M : AttrMap) (h : st.meta path = none) :
    (MessagePackBackend.SetMultiple b noFaults st path M true).2 = none ∧
    (MessagePackBackend.All b noFaults
        (MessagePackBackend.SetMultiple b noFaults st path M true).1 path).2
      = Except.ok M ∧
    (MessagePackBackend.All b pullFailEnv
        (MessagePackBackend.SetMultiple b noFaults st path M true).1 path).2
      = Except.ok M := by
  have hb : MessagePackBackend.readBase (st.meta path) = Except.ok ∅ := by
    rw [h]; rfl
  obtain ⟨he, hmeta, -, hcache⟩ := saveAttributes_ok_spec b st path M [] ∅ hb
  rw [mergeAttrs_nil_empty] at hmeta hcache
  have hc : (MessagePackBackend.saveAttributes b noFaults st path M [] true).1.cache
      (b.cacheKey path) = some M := by rw [hcache, Function.update_same]
  have hm : (MessagePackBackend.saveAttributes b noFaults st path M [] true).1.meta
      path = some (MetaFile.data M) := by rw [hmeta, Function.update_same]
  refine ⟨he, ?_, ?_⟩
  · show (MessagePackBackend.loadAttributes b noFaults
        (MessagePackBackend.saveAttributes b noFaults st path M [] true).1 path none).2
      = Except.ok M
    rw [load_hit b noFaults _ path M rfl hc]
  · show (MessagePackBackend.loadAttributes b pullFailEnv
        (MessagePackBackend.saveAttributes b noFaults st path M [] true).1 path none).2
      = Except.ok M
    rw [load_miss_data b pullFailEnv _ path M rfl rfl hm]

/-- Witness for claim C1 at a concrete world. -/
theorem c1_set_then_all_roundtrip_witness :
    st0.meta "/r/f" = none ∧
    ((MessagePackBackend.SetMultiple b0 noFaults st0 "/r/f" M0 true).2 = none ∧
     (MessagePackBackend.All b0 noFaults
         (MessagePackBackend.SetMultiple b0 noFaults st0 "/r/f" M0 true).1 "/r/f").2
       = Except.ok M0 ∧
     (MessagePackBackend.All b0 pullFailEnv
         (MessagePackBackend.SetMultiple b0 noFaults st0 "/r/f" M0 true).1 "/r/f").2
       = Except.ok M0) :=
  ⟨rfl, c1_set_then_all_roundtrip b0 st0 "/r/f" M0 rfl⟩

/-- Claim C2: N SetMultiple calls on the same object, serialized by the
advisory lock (modelled as executing sequentially in the order the lock was
granted, over every possible order), each adding a distinct key: all N calls
succeed and the final persisted map is the union of all N contributions —
every contribution is present and nothing else is. -/
theorem c2_serialized_writers_union (b : MessagePackBackend) (st : Sys)
    (path : String) (l : List (String × Val)) (h0 : st.meta path = none)
    (hne : l ≠ []) (hnd : (l.map Prod.fst).Nodup) :
    (runWriters b path st l).2 = true ∧
    (runWriters b path st l).1.meta path = some (MetaFile.data (unionOf l)) ∧
    (∀ kv ∈ l, (unionOf l).lookup kv.1 = some kv.2) ∧
    (∀ k, k ∈ unionOf l ↔ k ∈ l.map Prod.fst) := by
  obtain ⟨⟨k, v⟩, rest, rfl⟩ := List.exists_cons_of_ne_nil hne
  obtain ⟨hok, hmeta⟩ := runWriters_from_none b path st k v rest h0
  refine ⟨hok, hmeta, ?_, ?_⟩
  · intro kv hkv
    exact foldl_insert_lookup_mem _ ∅ kv hkv hnd
  · intro j
    have := foldl_insert_mem ((k, v) :: rest) ∅ j
    simpa [unionOf, Finmap.not_mem_empty] using this

/-- Witness for claim C2: two writers with distinct keys. -/
theorem c2_serialized_writers_union_witness :
    st0.meta "/r/f" = none ∧ l0 ≠ [] ∧ (l0.map Prod.fst).Nodup ∧
    ((runWriters b0 "/r/f" st0 l0).2 = true ∧
     (runWriters b0 "/r/f" st0 l0).1.meta "/r/f"
       = some (MetaFile.data (unionOf l0)) ∧
     (∀ kv ∈ l0, (unionOf l0).lookup kv.1 = some kv.2) ∧
     (∀ k, k ∈ unionOf l0 ↔ k ∈ l0.map Prod.fst)) :=
  ⟨rfl, by decide, by decide,
   c2_serialized_writers_union b0 st0 "/r/f" l0 rfl (by decide) (by decide)⟩

/-- Counterexample to claim C3: with an existing zero-length sidecar file the
read operations do not return a corruption error: All returns the empty map,
Get and GetInt64 report a missing attribute, List returns the empty key set. -/
theorem c3_zero_length_read_counterexample :
    (MessagePackBackend.All b0 noFaults stEmptyFile "/r/f").2 = Except.ok ∅ ∧
    (MessagePackBackend.Get b0 noFaults stEmptyFile "/r/f" "user.x").2
      = Except.error Err.noAttr ∧
    (MessagePackBackend.GetInt64 b0 noFaults stEmptyFile "/r/f" "user.x").2
      = Except.error Err.noAttr ∧
    (MessagePackBackend.List b0 noFaults stEmptyFile "/r/f").2 = Except.ok ∅ :=
  ⟨rfl, rfl, rfl, rfl⟩

/-- Claim C3 amended: a zero-length sidecar file is treated by every read
operation as an empty attribute map (which is pushed to the cache); only the
write path (`saveAttributes`) rejects an existing-but-empty file with the
corruption error. -/
theorem c3_zero_length_read_amended (b : MessagePackBackend) (st : Sys)
    (path key : String) (M : AttrMap) (dels : List String)
    (hc : st.cache (b.cacheKey path) = none)
    (hm : st.meta path = some MetaFile.emptyFile) :
    (MessagePackBackend.All b noFaults st path).2 = Except.ok ∅ ∧
    (MessagePackBackend.Get b noFaults st path key).2 = Except.error Err.noAttr ∧
    (MessagePackBackend.List b noFaults st path).2 = Except.ok ∅ ∧
    (MessagePackBackend.All b noFaults st path).1.cache (b.cacheKey path)
      = some ∅ ∧
    (MessagePackBackend.saveAttributes b noFaults st path M dels true).2
      = some Err.emptyMetafile := by
  have hload : MessagePackBackend.loadAttributes b noFaults st path none
      = ({st with cache := Function.update st.cache (b.cacheKey path) (some ∅)},
         Except.ok ∅) := by
    simp [MessagePackBackend.loadAttributes, pullFromCache, hc, hm,
      MessagePackBackend.decodeAndCache, MessagePackBackend.pushAndReturn,
      noFaults]
  refine ⟨?_, ?_, ?_, ?_, ?_⟩
  · show (MessagePackBackend.loadAttributes b noFaults st path none).2 = _
    rw [hload]
  · simp [MessagePackBackend.Get, hload, Finmap.lookup_empty]
  · simp [MessagePackBackend.List, hload, Finmap.keys_empty]
  · show (MessagePackBackend.loadAttributes b noFaults st path none).1.cache _ = _
    rw [hload]
    exact Function.update_same _ _ _
  · simp [MessagePackBackend.saveAttributes, noFaults, hm,
      MessagePackBackend.readBase]

/-- Witness for the amended claim C3 at a concrete world. -/
theorem c3_zero_length_read_amended_witness :
    stEmptyFile.cache (MessagePackBackend.cacheKey b0 "/r/f") = none ∧
    stEmptyFile.meta "/r/f" = some MetaFile.emptyFile ∧
    ((MessagePackBackend.All b0 noFaults stEmptyFile "/r/f").2 = Except.ok ∅ ∧
     (MessagePackBackend.Get b0 noFaults stEmptyFile "/r/f" "user.y").2
       = Except.error Err.noAttr ∧
     (MessagePackBackend.List b0 noFaults stEmptyFile "/r/f").2 = Except.ok ∅ ∧
     (MessagePackBackend.All b0 noFaults stEmptyFile "/r/f").1.cache
       (MessagePackBackend.cacheKey b0 "/r/f") = some ∅ ∧
     (MessagePackBackend.saveAttributes b0 noFaults stEmptyFile "/r/f" M0 [] true).2
       = some Err.emptyMetafile) :=
  ⟨rfl, rfl, c3_zero_length_read_amended b0 stEmptyFile "/r/f" "user.y" M0 [] rfl rfl⟩

/-- Claim C4 (code bug): when lock acquisition fails, Set, SetMultiple and
Remove do abort with the whole world — in particular the sidecar file —
untouched, but the failure is NOT returned to the caller as an error: the
deferred close of the never-opened lock handle, registered before the error
check, dereferences nil and panics (outcome `Err.crashNilClose`, distinct
from every returned error value such as `Err.lockErr`). -/
theorem c4_lock_failure_panics (b : MessagePackBackend) (st : Sys)
    (path key : String) (M : AttrMap) (v : Val) :
    MessagePackBackend.SetMultiple b lockFailEnv st path M true
      = (st, some Err.crashNilClose) ∧
    MessagePackBackend.Set b lockFailEnv st path key v
      = (st, some Err.crashNilClose) ∧
    MessagePackBackend.Remove b lockFailEnv st path key
      = (st, some Err.crashNilClose) ∧
    Err.crashNilClose ≠ Err.lockErr :=
  ⟨rfl, rfl, rfl, by decide⟩

/-- Counterexample to claim C5: a failing pre-write cache invalidation does
not abort saveAttributes (the error is discarded), and in Rename a failing
invalidation of the old cache entry IS fatal: the call errors with the
sidecar file not renamed. -/
theorem c5_cache_error_fatality_counterexample :
    (MessagePackBackend.saveAttributes b0 removeFailEnv stData "/r/f" M1 [] true).2
      = none ∧
    MessagePackBackend.Rename b0 removeFailEnv stData "/r/f" "/r/g"
      = (stData, some Err.cacheErr) :=
  ⟨rfl, rfl⟩

/-- Claim C5 amended: the pre-write cache invalidation in saveAttributes is
best-effort (its failure never aborts the mutation), while in Rename a
failure to invalidate the old cache entry is fatal and aborts before the
sidecar file is renamed. -/
theorem c5_cache_error_fatality_amended :
    (∀ (b : MessagePackBackend) (st : Sys) (path : String) (M : AttrMap)
        (dels : List String) (base : AttrMap),
       MessagePackBackend.readBase (st.meta path) = Except.ok base →
       (MessagePackBackend.saveAttributes b removeFailEnv st path M dels true).2
         = none) ∧
    (∀ (b : MessagePackBackend) (st : Sys) (oldPath newPath : String),
       st.cache (b.cacheKey oldPath) = none →
       MessagePackBackend.Rename b removeFailEnv st oldPath newPath
         = (st, some Err.cacheErr)) := by
  constructor
  · intro b st path M dels base h
    simp [MessagePackBackend.saveAttributes, removeFailEnv, noFaults, h]
  · intro b st oldPath newPath h
    simp [MessagePackBackend.Rename, pullFromCache, removeFailEnv, noFaults, h,
      MessagePackBackend.renameTail]

/-- Witness for the amended claim C5 at a concrete world. -/
theorem c5_cache_error_fatality_amended_witness :
    MessagePackBackend.readBase (stData.meta "/r/f") = Except.ok M0 ∧
    stData.cache (MessagePackBackend.cacheKey b0 "/r/f") = none ∧
    (MessagePackBackend.saveAttributes b0 removeFailEnv stData "/r/f" M1 ["user.x"] true).2
      = none ∧
    MessagePackBackend.Rename b0 removeFailEnv stData "/r/f" "/r/g"
      = (stData, some Err.cacheErr) :=
  ⟨rfl, rfl,
   c5_cache_error_fatality_amended.1 b0 stData "/r/f" M1 ["user.x"] M0 rfl,
   c5_cache_error_fatality_amended.2 b0 stData "/r/f" "/r/g" rfl⟩

/-- Counterexample to claim C6: sidecar file missing but the object exists —
All returns the empty map but does not push it into the cache: the returned
world is unchanged and the cache entry is still absent. -/
theorem c6_missing_sidecar_counterexample :
    MessagePackBackend.All b0 noFaults st0 "/r/f" = (st0, Except.ok ∅) ∧
    (MessagePackBackend.All b0 noFaults st0 "/r/f").1.cache
      (MessagePackBackend.cacheKey b0 "/r/f") = none :=
  ⟨rfl, rfl⟩

/-- Claim C6 amended: on a cache miss with the sidecar file missing, a read
fails with not-found when the primary object is also missing, and otherwise
returns the empty attribute map immediately — without pushing it into the
cache (the world is returned unchanged). -/
theorem c6_missing_sidecar_amended (b : MessagePackBackend) (st : Sys)
    (path : String) (hc : st.cache (b.cacheKey path) = none)
    (hm : st.meta path = none) :
    (st.obj path = false →
      MessagePackBackend.All b noFaults st path
        = (st, Except.error Err.notFound)) ∧
    (st.obj path = true →
      MessagePackBackend.All b noFaults st path = (st, Except.ok ∅)) := by
  constructor <;> intro h <;>
    simp [MessagePackBackend.All, MessagePackBackend.loadAttributes,
      pullFromCache, noFaults, hc, hm, h]

/-- Witness for the amended claim C6 at concrete worlds, covering both the
object-missing and the object-present branch. -/
theorem c6_missing_sidecar_amended_witness :
    (stMissing.cache (MessagePackBackend.cacheKey b0 "/r/f") = none ∧
     stMissing.meta "/r/f" = none ∧ stMissing.obj "/r/f" = false ∧
     MessagePackBackend.All b0 noFaults stMissing "/r/f"
       = (stMissing, Except.error Err.notFound)) ∧
    (st0.cache (MessagePackBackend.cacheKey b0 "/r/f") = none ∧
     st0.meta "/r/f" = none ∧ st0.obj "/r/f" = true ∧
     MessagePackBackend.All b0 noFaults st0 "/r/f" = (st0, Except.ok ∅)) :=
  ⟨⟨rfl, rfl, rfl,
    (c6_missing_sidecar_amended b0 stMissing "/r/f" rfl rfl).1 rfl⟩,
   ⟨rfl, rfl, rfl,
    (c6_missing_sidecar_amended b0 st0 "/r/f" rfl rfl).2 rfl⟩⟩

/-- Claim C7: a mutation merges from the empty base map when the sidecar file
is missing; when the file exists but is zero-length it aborts with the
corruption error, the file system untouched and the cache entry invalidated —
reflecting none of the requested entries or deletions. -/
theorem c7_missing_vs_empty_base (b : MessagePackBackend) (st : Sys)
    (path : String) (M : AttrMap) (dels : List String) :
    (st.meta path = none →
      (MessagePackBackend.saveAttributes b noFaults st path M dels true).2
        = none ∧
      (MessagePackBackend.saveAttributes b noFaults st path M dels true).1.meta
        path = some (MetaFile.data (MessagePackBackend.mergeAttrs ∅ M dels))) ∧
    (st.meta path = some MetaFile.emptyFile →
      (MessagePackBackend.saveAttributes b noFaults st path M dels true).2
        = some Err.emptyMetafile ∧
      (MessagePackBackend.saveAttributes b noFaults st path M dels true).1.meta
        = st.meta ∧
      (MessagePackBackend.saveAttributes b noFaults st path M dels true).1.cache
        (b.cacheKey path) = none) := by
  constructor
  · intro h
    have hb : MessagePackBackend.readBase (st.meta path) = Except.ok ∅ := by
      rw [h]; rfl
    obtain ⟨he, hmeta, -, -⟩ := saveAttributes_ok_spec b st path M dels ∅ hb
    exact ⟨he, by rw [hmeta, Function.update_same]⟩
  · intro h
    refine ⟨?_, ?_, ?_⟩ <;>
      simp [MessagePackBackend.saveAttributes, noFaults, h,
        MessagePackBackend.readBase, Function.update_same]

/-- Witness for claim C7 at concrete worlds, covering both the missing-file
and the zero-length-file branch. -/
theorem c7_missing_vs_empty_base_witness :
    (st0.meta "/r/f" = none ∧
     (MessagePackBackend.saveAttributes b0 noFaults st0 "/r/f" M0 ["user.z"] true).2
       = none ∧
     (MessagePackBackend.saveAttributes b0 noFaults st0 "/r/f" M0 ["user.z"] true).1.meta
       "/r/f" = some (MetaFile.data (MessagePackBackend.mergeAttrs ∅ M0 ["user.z"]))) ∧
    (stEmptyFile.meta "/r/f" = some MetaFile.emptyFile ∧
     (MessagePackBackend.saveAttributes b0 noFaults stEmptyFile "/r/f" M0 ["user.z"] true).2
       = some Err.emptyMetafile ∧
     (MessagePackBackend.saveAttributes b0 noFaults stEmptyFile "/r/f" M0 ["user.z"] true).1.meta
       = stEmptyFile.meta ∧
     (MessagePackBackend.saveAttributes b0 noFaults stEmptyFile "/r/f" M0 ["user.z"] true).1.cache
       (MessagePackBackend.cacheKey b0 "/r/f") = none) :=
  ⟨⟨rfl, (c7_missing_vs_empty_base b0 st0 "/r/f" M0 ["user.z"]).1 rfl⟩,
   ⟨rfl, (c7_missing_vs_empty_base b0 stEmptyFile "/r/f" M0 ["user.z"]).2 rfl⟩⟩

/-- Counterexample to claim C8: a Rename whose cache-migration push fails
returns the cache error with the world unchanged — the sidecar file is not
renamed, so not every Rename call renames it. -/
theorem c8_rename_counterexample :
    MessagePackBackend.Rename b0 pushFailEnv stCached "/r/f" "/r/g"
      = (stCached, some Err.cacheErr) ∧
    stCached.meta "/r/g" = none ∧
    stCached.meta "/r/f" = some (MetaFile.data M0) :=
  ⟨rfl, rfl, rfl⟩

/-- Claim C8 amended: a cache-read failure on the old key is treated as
nothing-to-migrate and the sidecar file is still renamed; but a failure to
push the migrated entry or to remove the old cache entry aborts Rename with
the error before the sidecar file is renamed. -/
theorem c8_rename_amended :
    (∀ (b : MessagePackBackend) (st : Sys) (oldPath newPath : String)
        (c : MetaFile),
       st.meta oldPath = some c →
       (MessagePackBackend.Rename b pullFailEnv st oldPath newPath).2 = none ∧
       (MessagePackBackend.Rename b pullFailEnv st oldPath newPath).1.meta
         newPath = some c ∧
       (oldPath ≠ newPath →
         (MessagePackBackend.Rename b pullFailEnv st oldPath newPath).1.meta
           oldPath = none)) ∧
    (∀ (b : MessagePackBackend) (st : Sys) (oldPath newPath : String)
        (m : AttrMap),
       st.cache (b.cacheKey oldPath) = some m →
       MessagePackBackend.Rename b pushFailEnv st oldPath newPath
         = (st, some Err.cacheErr)) ∧
    (∀ (b : MessagePackBackend) (st : Sys) (oldPath newPath : String),
       st.cache (b.cacheKey oldPath) = none →
       MessagePackBackend.Rename b removeFailEnv st oldPath newPath
         = (st, some Err.cacheErr)) := by
  refine ⟨?_, ?_, ?_⟩
  · intro b st oldPath newPath c h
    refine ⟨?_, ?_, ?_⟩
    · simp [MessagePackBackend.Rename, pullFromCache, pullFailEnv, noFaults,
        MessagePackBackend.renameTail, h]
    · simp [MessagePackBackend.Rename, pullFromCache, pullFailEnv, noFaults,
        MessagePackBackend.renameTail, h, Function.update_same]
    · intro hne
      simp [MessagePackBackend.Rename, pullFromCache, pullFailEnv, noFaults,
        MessagePackBackend.renameTail, h, Function.update_noteq hne,
        Function.update_same]
  · intro b st oldPath newPath m h
    simp [MessagePackBackend.Rename, pullFromCache, pushFailEnv, noFaults, h]
  · intro b st oldPath newPath h
    simp [MessagePackBackend.Rename, pullFromCache, removeFailEnv, noFaults, h,
      MessagePackBackend.renameTail]

/-- Witness for the amended claim C8 at concrete worlds, covering the
pull-failure, push-failure and invalidation-failure paths. -/
theorem c8_rename_amended_witness :
    (stData.meta "/r/f" = some (MetaFile.data M0) ∧
     (MessagePackBackend.Rename b0 pullFailEnv stData "/r/f" "/r/g").2 = none ∧
     (MessagePackBackend.Rename b0 pullFailEnv stData "/r/f" "/r/g").1.meta "/r/g"
       = some (MetaFile.data M0) ∧
     (MessagePackBackend.Rename b0 pullFailEnv stData "/r/f" "/r/g").1.meta "/r/f"
       = none) ∧
    (stCached.cache (MessagePackBackend.cacheKey b0 "/r/f") = some M0 ∧
     MessagePackBackend.Rename b0 pushFailEnv stCached "/r/f" "/r/g"
       = (stCached, some Err.cacheErr)) ∧
    (stData.cache (MessagePackBackend.cacheKey b0 "/r/f") = none ∧
     MessagePackBackend.Rename b0 removeFailEnv stData "/r/f" "/r/g"
       = (stData, some Err.cacheErr)) :=
  ⟨⟨rfl, (c8_rename_amended.1 b0 stData "/r/f" "/r/g" (MetaFile.data M0) rfl).1,
    (c8_rename_amended.1 b0 stData "/r/f" "/r/g" (MetaFile.data M0) rfl).2.1,
    (c8_rename_amended.1 b0 stData "/r/f" "/r/g" (MetaFile.data M0) rfl).2.2
      (by decide)⟩,
   ⟨rfl, c8_rename_amended.2.1 b0 stCached "/r/f" "/r/g" M0 rfl⟩,
   ⟨rfl, c8_rename_amended.2.2 b0 stData "/r/f" "/r/g" rfl⟩⟩

/-- Claim C9 (code bug): the path classifier accepts the derived sidecar path
but rejects the derived lock path — LockfilePath appends `.mlock` while
IsMetaFile tests for the stale `.mpk.lock` suffix, so lock files are not
excluded from object-level iteration. -/
theorem c9_lock_path_not_meta :
    MessagePackBackend.IsMetaFile (MessagePackBackend.MetadataPath "/a/f")
      = true ∧
    MessagePackBackend.LockfilePath "/a/f" = "/a/f.mlock" ∧
    MessagePackBackend.IsMetaFile (MessagePackBackend.LockfilePath "/a/f")
      = false := by
  decide

/-- Claim C10: if the atomic write succeeds but the final cache push fails,
saveAttributes returns an error although the merged map is already durably
persisted; the cache entry was invalidated beforehand, so no stale value
remains and a subsequent fault-free read returns the new map. -/
theorem c10_push_failure_after_persist (b : MessagePackBackend) (st : Sys)
    (path : String) (M : AttrMap) (dels : List String) (base : AttrMap)
    (h : MessagePackBackend.readBase (st.meta path) = Except.ok base) :
    (MessagePackBackend.saveAttributes b pushFailEnv st path M dels true).2
      = some Err.cacheErr ∧
    (MessagePackBackend.saveAttributes b pushFailEnv st path M dels true).1.meta
      path = some (MetaFile.data (MessagePackBackend.mergeAttrs base M dels)) ∧
    (MessagePackBackend.saveAttributes b pushFailEnv st path M dels true).1.cache
      (b.cacheKey path) = none ∧
    (MessagePackBackend.All b noFaults
        (MessagePackBackend.saveAttributes b pushFailEnv st path M dels true).1
        path).2
      = Except.ok (MessagePackBackend.mergeAttrs base M dels) := by
  have hsave : MessagePackBackend.saveAttributes b pushFailEnv st path M dels true
      = ({ meta := Function.update st.meta path
             (some (MetaFile.data (MessagePackBackend.mergeAttrs base M dels))),
           obj := st.obj,
           cache := Function.update st.cache (b.cacheKey path) none },
         some Err.cacheErr) := by
    simp [MessagePackBackend.saveAttributes, pushFailEnv, noFaults, h]
  refine ⟨?_, ?_, ?_, ?_⟩
  · rw [hsave]
  · rw [hsave]
    exact Function.update_same _ _ _
  · rw [hsave]
    exact Function.update_same _ _ _
  · have hpull : pullFromCache
        (MessagePackBackend.saveAttributes b pushFailEnv st path M dels true).1
        noFaults (b.cacheKey path) = none := by
      show (if noFaults.pullFail then none else _) = none
      rw [if_neg (by decide)]
      rw [hsave]
      exact Function.update_same _ _ _
    have hm : (MessagePackBackend.saveAttributes b pushFailEnv st path M dels true).1.meta
        path = some (MetaFile.data (MessagePackBackend.mergeAttrs base M dels)) := by
      rw [hsave]
      exact Function.update_same _ _ _
    show (MessagePackBackend.loadAttributes b noFaults
        (MessagePackBackend.saveAttributes b pushFailEnv st path M dels true).1
        path none).2 = _
    rw [load_miss_data b noFaults _ path _ hpull rfl hm]

/-- Witness for claim C10 at a concrete world. -/
theorem c10_push_failure_after_persist_witness :
    MessagePackBackend.readBase (stData.meta "/r/f") = Except.ok M0 ∧
    ((MessagePackBackend.saveAttributes b0 pushFailEnv stData "/r/f" M1 [] true).2
       = some Err.cacheErr ∧
     (MessagePackBackend.saveAttributes b0 pushFailEnv stData "/r/f" M1 [] true).1.meta
       "/r/f" = some (MetaFile.data (MessagePackBackend.mergeAttrs M0 M1 [])) ∧
     (MessagePackBackend.saveAttributes b0 pushFailEnv stData "/r/f" M1 [] true).1.cache
       (MessagePackBackend.cacheKey b0 "/r/f") = none ∧
     (MessagePackBackend.All b0 noFaults
         (MessagePackBackend.saveAttributes b0 pushFailEnv stData "/r/f" M1 [] true).1
         "/r/f").2
       = Except.ok (MessagePackBackend.mergeAttrs M0 M1 [])) :=
  ⟨rfl, c10_push_failure_after_persist b0 stData "/r/f" M1 [] M0 rfl⟩
